import Mathlib

/-!
Verification of the NL2SQL schema-aware retrieval pipeline.

The Python sources are shallowly embedded:
* a Python `dict` (insertion-ordered, unique keys) is modelled as an
  association list `List (String × _)` with first-match lookup and
  update-in-place-or-append insertion;
* `schema_summary` (build_vector_db.py) renders each table's metadata;
* the selection loop of `get_relevant_schemas` (main.py) projects the
  schema to the retrieved table names;
* `create_documents` (build_vector_db.py) pairs summaries with table
  names by index;
* `json.loads` / `dict.get` (the parse step of `llm_sql_query`),
  `load_schema` and `sql_response` are embedded with explicit
  `Option`/`Except` results standing for Python `None` and raised
  exceptions.
-/

/-- One foreign-key record of the schema JSON:
`{'column': …, 'references_table': …, 'references_column': …}`
(see schema_generation.py lines 57-61 and its use in build_vector_db.py). -/
structure ForeignKeyRef where
  column : String
  references_table : String
  references_column : String
deriving DecidableEq, Repr

/-- The value stored under one table name in the schema dict:
`{'columns': …, 'primary_keys': …, 'foreign_keys': …}`.
`columns` is a Python dict column-name → declared-type string, modelled as
an insertion-ordered association list. -/
structure TableInfo where
  columns : List (String × String)
  primary_keys : List String
  foreign_keys : List ForeignKeyRef
deriving DecidableEq, Repr

/-- The schema model: a Python dict table-name → table info, modelled as an
insertion-ordered association list. -/
abbrev Schema := List (String × TableInfo)

/-- Python `d[k]` / `k in d` lookup on the modelled dict: first matching key. -/
def alistLookup (k : String) : Schema → Option TableInfo
  | [] => none
  | (k2, v) :: rest => if k2 = k then some v else alistLookup k rest

/-- Python `d[k] = v` on the modelled dict: replace the value in place if the
key is present, otherwise append at the end (insertion order). -/
def dictInsert (k : String) (v : TableInfo) : Schema → Schema
  | [] => [(k, v)]
  | (k2, v2) :: rest =>
      if k2 = k then (k2, v) :: rest else (k2, v2) :: dictInsert k v rest

/-- The foreign-key description built in build_vector_db.py line 65:
`f"{fk['column']} references {fk['references_table']}.{fk['references_column']}"`. -/
def fkDesc (fk : ForeignKeyRef) : String :=
  fk.column ++ " references " ++ fk.references_table ++ "." ++ fk.references_column

/-- The base sentence of build_vector_db.py line 54:
`f"This table {table_name} , has columns {columns_text}."` where
`columns_text = ", ".join(columns.keys())`. -/
def baseSummary (table_name : String) (ti : TableInfo) : String :=
  "This table " ++ table_name ++ " , has columns " ++
    String.intercalate ", " (ti.columns.map Prod.fst) ++ "."

/-- The primary-key sentence appended at build_vector_db.py lines 57-59 when
`primary_keys` is truthy (non-empty); empty string otherwise. -/
def pkClause (ti : TableInfo) : String :=
  if ti.primary_keys.isEmpty then ""
  else " The primary key in this table is " ++
    String.intercalate ", " ti.primary_keys ++ "."

/-- The foreign-key sentence appended at build_vector_db.py lines 62-68 when
`foreign_keys` is truthy (non-empty); empty string otherwise. -/
def fkClause (ti : TableInfo) : String :=
  if ti.foreign_keys.isEmpty then ""
  else " Foreign keys: " ++
    String.intercalate "; " (ti.foreign_keys.map fkDesc) ++ "."

/-- The summary string built for one table by the loop body of
`schema_summary` (build_vector_db.py lines 44-70): base sentence, then the
conditional primary-key sentence, then the conditional foreign-key sentence. -/
def tableSummary (table_name : String) (ti : TableInfo) : String :=
  baseSummary table_name ti ++ pkClause ti ++ fkClause ti

/-- `schema_summary(schema)` (build_vector_db.py lines 31-72): one summary
string per table, in the dict's iteration (insertion) order. -/
def schema_summary (schema : Schema) : List String :=
  schema.map (fun p => tableSummary p.1 p.2)

/-- Erase every declared column type (replace it by `""`), keeping names,
order, primary keys and foreign keys: two schemas are "identical except in
the type strings of their columns" exactly when their erasures are equal. -/
def eraseTypes (ti : TableInfo) : TableInfo :=
  { columns := ti.columns.map (fun c => (c.1, ""))
    primary_keys := ti.primary_keys
    foreign_keys := ti.foreign_keys }

/-- Type erasure lifted to a whole schema. -/
def schemaEraseTypes (s : Schema) : Schema :=
  s.map (fun p => (p.1, eraseTypes p.2))

/-- The `appointments` table of the spec's worked example (§8). -/
def appointmentsInfo : TableInfo :=
  { columns := [("id", "int"), ("patient_id", "int")]
    primary_keys := ["id"]
    foreign_keys := [⟨"patient_id", "patients", "id"⟩] }

/-- `a` occurs in `s` as a contiguous substring. -/
def ContainsStr (s a : String) : Prop :=
  ∃ p q : String, s = p ++ a ++ q

lemma schema_summary_getElem? (s : Schema) (i : Nat) :
    (schema_summary s)[i]? = (s[i]?).map (fun p => tableSummary p.1 p.2) := by
  simp [schema_summary]

lemma map_fst_eraseCols (l : List (String × String)) :
    List.map (Prod.fst ∘ fun c : String × String => (c.1, "")) l =
      List.map Prod.fst l := by
  induction l with
  | nil => rfl
  | cons a t ih => simp [Function.comp, ih]

lemma tableSummary_eraseTypes (n : String) (ti : TableInfo) :
    tableSummary n (eraseTypes ti) = tableSummary n ti := by
  simp [tableSummary, baseSummary, pkClause, fkClause, eraseTypes,
    List.map_map, map_fst_eraseCols]

lemma schema_summary_eraseTypes (s : Schema) :
    schema_summary (schemaEraseTypes s) = schema_summary s := by
  simp [schema_summary, schemaEraseTypes, List.map_map, Function.comp,
    tableSummary_eraseTypes]

/-- C2: summarization is a pure function of the table's fields: whenever the
entry at position `i` of one schema equals (name and metadata, byte for byte)
the entry at position `j` of another, the summary strings produced by
`schema_summary` at those positions are identical. -/
theorem schema_summary_deterministic (s1 s2 : Schema) (i j : Nat)
    (h : s1[i]? = s2[j]?) :
    (schema_summary s1)[i]? = (schema_summary s2)[j]? := by
  rw [schema_summary_getElem?, schema_summary_getElem?, h]

theorem schema_summary_deterministic_witness :
    (schema_summary [("patients", appointmentsInfo)])[0]? =
      (schema_summary [("x", appointmentsInfo), ("patients", appointmentsInfo)])[1]? :=
  schema_summary_deterministic _ _ 0 1 (by decide)

/-- C3: whenever the foreign-key list is non-empty, `schema_summary` appends
exactly one clause per foreign key in list order, each of the form
`<column> references <table>.<column>`, joined by `"; "` inside the single
sentence `" Foreign keys: …."`; moreover the summary of the spec's example
`appointments` table contains the primary-key clause naming `id` and the
substring `"patient_id references patients.id"`. -/
theorem schema_summary_fk_clause :
    (∀ (n : String) (ti : TableInfo), ti.foreign_keys ≠ [] →
      tableSummary n ti =
        baseSummary n ti ++ pkClause ti ++ " Foreign keys: " ++
          String.intercalate "; " (ti.foreign_keys.map fkDesc) ++ ".") ∧
    ContainsStr (tableSummary "appointments" appointmentsInfo)
      "The primary key in this table is id." ∧
    ContainsStr (tableSummary "appointments" appointmentsInfo)
      "patient_id references patients.id" := by
  refine ⟨fun n ti h => ?_, ?_, ?_⟩
  · simp [tableSummary, fkClause, List.isEmpty_iff, h, String.append_assoc]
  · exact ⟨"This table appointments , has columns id, patient_id. ",
      " Foreign keys: patient_id references patients.id.", by decide⟩
  · exact ⟨"This table appointments , has columns id, patient_id. The primary key in this table is id. Foreign keys: ",
      ".", by decide⟩

theorem schema_summary_fk_clause_witness :
    appointmentsInfo.foreign_keys ≠ [] ∧
    tableSummary "appointments" appointmentsInfo =
      baseSummary "appointments" appointmentsInfo ++ pkClause appointmentsInfo ++
        " Foreign keys: " ++
        String.intercalate "; " (appointmentsInfo.foreign_keys.map fkDesc) ++ "." :=
  ⟨by decide, schema_summary_fk_clause.1 "appointments" appointmentsInfo (by decide)⟩

/-- C4: when both the primary-key list and the foreign-key list are empty the
summary is exactly the base sentence; with zero columns as well, it is the
base sentence with an empty column list. -/
theorem schema_summary_no_keys :
    (∀ (n : String) (ti : TableInfo),
      ti.primary_keys = [] → ti.foreign_keys = [] →
      tableSummary n ti = baseSummary n ti) ∧
    (∀ n : String,
      tableSummary n ⟨[], [], []⟩ = "This table " ++ n ++ " , has columns .") := by
  constructor
  · intro n ti h1 h2
    simp [tableSummary, pkClause, fkClause, h1, h2]
  · intro n
    show "This table " ++ n ++ " , has columns " ++ String.intercalate ", " [] ++ "." ++ "" ++ "" =
      "This table " ++ n ++ " , has columns ."
    rw [show String.intercalate ", " ([] : List String) = "" from rfl,
      String.append_empty, String.append_empty, String.append_empty,
      String.append_assoc, String.append_assoc,
      show (" , has columns " : String) ++ "." = " , has columns ." from by decide,
      ← String.append_assoc]

theorem schema_summary_no_keys_witness :
    tableSummary "logs" ⟨[("msg", "text")], [], []⟩ =
      baseSummary "logs" ⟨[("msg", "text")], [], []⟩ :=
  schema_summary_no_keys.1 "logs" ⟨[("msg", "text")], [], []⟩ rfl rfl

/-- C5: summarization never inspects the declared column types: any two
schemas that agree after erasing every column-type string (same table names,
same column names in order, same primary and foreign keys) get identical
summary lists. -/
theorem schema_summary_type_independent (s1 s2 : Schema)
    (h : schemaEraseTypes s1 = schemaEraseTypes s2) :
    schema_summary s1 = schema_summary s2 := by
  rw [← schema_summary_eraseTypes s1, ← schema_summary_eraseTypes s2, h]

theorem schema_summary_type_independent_witness :
    schema_summary [("patients", ⟨[("id", "int")], ["id"], []⟩)] =
      schema_summary [("patients", ⟨[("id", "bigint")], ["id"], []⟩)] :=
  schema_summary_type_independent _ _ (by decide)

/-- The selection loop of `get_relevant_schemas` (main.py lines 84-90):
`for table_name in relevant_tables: if table_name in schema:
selected_tables_schema[table_name] = schema[table_name]`, starting from the
empty dict `selected_tables_schema = {}`. -/
def selectLoop (schema : Schema) : List String → Schema → Schema
  | [], acc => acc
  | n :: rest, acc =>
      match alistLookup n schema with
      | some t => selectLoop schema rest (dictInsert n t acc)
      | none => selectLoop schema rest acc

/-- The pure selection step of `get_relevant_schemas` (main.py lines 71-90):
the retrieval results are the ranked list of table names read off the
returned documents' metadata; the loop projects the schema to them. -/
def get_relevant_schemas_select (relevant_tables : List String)
    (schema : Schema) : Schema :=
  selectLoop schema relevant_tables []

lemma dictInsert_of_not_mem (k : String) (v : TableInfo) (l : Schema)
    (h : k ∉ l.map Prod.fst) : dictInsert k v l = l ++ [(k, v)] := by
  induction l with
  | nil => rfl
  | cons a t ih =>
      simp only [List.map_cons, List.mem_cons] at h
      push_neg at h
      simp [dictInsert, Ne.symm h.1, ih h.2]

lemma keys_dictInsert (k : String) (v : TableInfo) (l : Schema) :
    (dictInsert k v l).map Prod.fst =
      if k ∈ l.map Prod.fst then l.map Prod.fst
      else l.map Prod.fst ++ [k] := by
  induction l with
  | nil => simp [dictInsert]
  | cons a t ih =>
      by_cases hak : a.1 = k
      · simp [dictInsert, hak]
      · simp only [dictInsert, if_neg hak, List.map_cons, ih, List.mem_cons]
        by_cases hk : k ∈ t.map Prod.fst
        · simp [hk, Ne.symm hak]
        · simp [hk, Ne.symm hak]

lemma alistLookup_some_mem (k : String) (s : Schema) (t : TableInfo)
    (h : alistLookup k s = some t) : k ∈ s.map Prod.fst := by
  induction s with
  | nil => simp [alistLookup] at h
  | cons a rest ih =>
      by_cases hak : a.1 = k
      · simp [hak]
      · simp only [alistLookup, if_neg hak] at h
        simp [ih h]

lemma selectLoop_eq_append (schema : Schema) (results : List String)
    (acc : Schema) (hnd : results.Nodup)
    (hdisj : ∀ n ∈ results, n ∉ acc.map Prod.fst) :
    selectLoop schema results acc =
      acc ++ results.filterMap
        (fun n => (alistLookup n schema).map (fun t => (n, t))) := by
  induction results generalizing acc with
  | nil => simp [selectLoop]
  | cons n rest ih =>
      have hn : n ∉ acc.map Prod.fst := hdisj n (by simp)
      have hndr : rest.Nodup := (List.nodup_cons.mp hnd).2
      cases hl : alistLookup n schema with
      | none =>
          simp only [selectLoop, hl]
          rw [ih acc hndr (fun m hm => hdisj m (List.mem_cons_of_mem n hm))]
          simp [hl]
      | some t =>
          simp only [selectLoop, hl]
          have hdisj2 : ∀ m ∈ rest, m ∉ (dictInsert n t acc).map Prod.fst := by
            intro m hm
            rw [dictInsert_of_not_mem n t acc hn]
            simp only [List.map_append, List.mem_append, List.map_cons,
              List.map_nil, List.mem_singleton]
            rintro (hma | hmn)
            · exact hdisj m (List.mem_cons_of_mem n hm) hma
            · exact (List.nodup_cons.mp hnd).1 (hmn ▸ hm)
          rw [ih (dictInsert n t acc) hndr hdisj2,
            dictInsert_of_not_mem n t acc hn]
          simp [hl]

/-- C1: for duplicate-free ranked retrieval results, the selection step
returns exactly the association list of those result table names present in
the schema, in the results' rank order, each bound to the unmodified table
metadata looked up in the input schema; absent names are skipped silently,
so the output may be shorter than the results list. -/
theorem get_relevant_schemas_select_spec (schema : Schema)
    (relevant_tables : List String) (hnd : relevant_tables.Nodup) :
    get_relevant_schemas_select relevant_tables schema =
      relevant_tables.filterMap
        (fun n => (alistLookup n schema).map (fun t => (n, t))) := by
  rw [get_relevant_schemas_select,
    selectLoop_eq_append schema relevant_tables [] hnd (by simp)]
  simp

theorem get_relevant_schemas_select_spec_witness :
    get_relevant_schemas_select ["appointments", "doctors", "patients"]
        [("patients", appointmentsInfo), ("appointments", appointmentsInfo)] =
      [("appointments", appointmentsInfo), ("patients", appointmentsInfo)] :=
  (get_relevant_schemas_select_spec
    [("patients", appointmentsInfo), ("appointments", appointmentsInfo)]
    ["appointments", "doctors", "patients"] (by decide)).trans (by decide)

lemma nodup_keys_dictInsert (k : String) (v : TableInfo) (l : Schema)
    (h : (l.map Prod.fst).Nodup) :
    ((dictInsert k v l).map Prod.fst).Nodup := by
  rw [keys_dictInsert]
  by_cases hk : k ∈ l.map Prod.fst
  · simpa [hk]
  · simpa [hk, List.nodup_append] using h

lemma mem_keys_dictInsert (k2 k : String) (v : TableInfo) (l : Schema)
    (h : k2 ∈ (dictInsert k v l).map Prod.fst) :
    k2 = k ∨ k2 ∈ l.map Prod.fst := by
  rw [keys_dictInsert] at h
  by_cases hk : k ∈ l.map Prod.fst
  · rw [if_pos hk] at h
    exact Or.inr h
  · rw [if_neg hk] at h
    rcases List.mem_append.mp h with h1 | h1
    · exact Or.inr h1
    · exact Or.inl (List.mem_singleton.mp h1)

lemma selectLoop_keys (schema : Schema) (results : List String) (acc : Schema)
    (h1 : ∀ k ∈ acc.map Prod.fst, k ∈ schema.map Prod.fst)
    (h2 : (acc.map Prod.fst).Nodup) :
    (∀ k ∈ (selectLoop schema results acc).map Prod.fst,
        k ∈ schema.map Prod.fst) ∧
      ((selectLoop schema results acc).map Prod.fst).Nodup := by
  induction results generalizing acc with
  | nil => exact ⟨h1, h2⟩
  | cons n rest ih =>
      cases hl : alistLookup n schema with
      | none =>
          simp only [selectLoop, hl]
          exact ih acc h1 h2
      | some t =>
          simp only [selectLoop, hl]
          refine ih (dictInsert n t acc) ?_ (nodup_keys_dictInsert n t acc h2)
          intro k hk
          rcases mem_keys_dictInsert k n t acc hk with rfl | hk2
          · exact alistLookup_some_mem k schema t hl
          · exact h1 k hk2

/-- C10: the selection step's output keys always form a subset of the input
schema's keys, and are duplicate-free — repeated retrieval of the same table
name collapses to a single entry of the output dict. -/
theorem get_relevant_schemas_select_keys (schema : Schema)
    (relevant_tables : List String) :
    (∀ k ∈ (get_relevant_schemas_select relevant_tables schema).map Prod.fst,
        k ∈ schema.map Prod.fst) ∧
      ((get_relevant_schemas_select relevant_tables schema).map
          Prod.fst).Nodup :=
  selectLoop_keys schema relevant_tables [] (by simp) (by simp)

theorem get_relevant_schemas_select_keys_witness :
    (∀ k ∈ (get_relevant_schemas_select
        ["patients", "patients", "ghosts"]
        [("patients", appointmentsInfo)]).map Prod.fst,
        k ∈ ([("patients", appointmentsInfo)] : Schema).map Prod.fst) ∧
      ((get_relevant_schemas_select ["patients", "patients", "ghosts"]
          [("patients", appointmentsInfo)]).map Prod.fst).Nodup :=
  get_relevant_schemas_select_keys [("patients", appointmentsInfo)]
    ["patients", "patients", "ghosts"]

/-- A langchain `Document` as built by `create_documents`
(build_vector_db.py lines 90-93): its `page_content` and the single
`table_name` metadata entry. -/
structure SummaryDocument where
  page_content : String
  table_name : String
deriving DecidableEq, Repr

/-- The loop of `create_documents` (build_vector_db.py lines 89-94):
`for i, summary in enumerate(summaries)` builds a document from `summary`
and `table_names[i]`; indexing past the end of `table_names` raises
`IndexError`, modelled as `none`. -/
def createDocsLoop : List String → List String → Option (List SummaryDocument)
  | [], _ => some []
  | _ :: _, [] => none
  | s :: ss, n :: ns =>
      (createDocsLoop ss ns).map
        (fun ds => { page_content := s, table_name := n } :: ds)

/-- `create_documents(summaries, schema)` (build_vector_db.py lines 75-96):
`table_names = list(schema.keys())`, then the enumeration loop. -/
def create_documents (summaries : List String) (schema : Schema) :
    Option (List SummaryDocument) :=
  createDocsLoop summaries (schema.map Prod.fst)

lemma createDocsLoop_summaries (s : Schema) :
    createDocsLoop (schema_summary s) (s.map Prod.fst) =
      some (s.map (fun p =>
        { page_content := tableSummary p.1 p.2, table_name := p.1 })) := by
  induction s with
  | nil => rfl
  | cons a t ih =>
      simp only [schema_summary, List.map_cons] at ih ⊢
      rw [createDocsLoop, ih]
      rfl

/-- C9: feeding `schema_summary schema` to `create_documents` succeeds and
yields exactly one document per table, in order: the document at position
`i` carries the `i`-th table's name as metadata and that table's summary as
page content. -/
theorem create_documents_aligned (schema : Schema) :
    create_documents (schema_summary schema) schema =
      some (schema.map (fun p =>
        { page_content := tableSummary p.1 p.2, table_name := p.1 })) :=
  createDocsLoop_summaries schema

/-- JSON values as decoded by Python's `json.loads`. A numeric literal is
kept as its raw lexeme so no floating-point semantics is introduced; an
object keeps its member list in source order (later duplicates win on
lookup, as in a Python dict). -/
inductive Json where
  | null : Json
  | bool : Bool → Json
  | num : String → Json
  | str : String → Json
  | arr : List Json → Json
  | obj : List (String × Json) → Json
deriving Repr

/-- The opening brace character. -/
def lbrace : Char := Char.ofNat 123

/-- The closing brace character. -/
def rbrace : Char := Char.ofNat 125

/-- JSON insignificant whitespace (space, tab, newline, carriage return). -/
def isJsonWs (c : Char) : Bool :=
  c = ' ' || c = '\t' || c = '\n' || c = '\r'

/-- Drop leading JSON whitespace. -/
def skipWs : List Char → List Char
  | [] => []
  | c :: cs => if isJsonWs c then skipWs cs else c :: cs

/-- Value of one hexadecimal digit. -/
def hexVal (c : Char) : Option Nat :=
  if '0' ≤ c ∧ c ≤ '9' then some (c.toNat - 48)
  else if 'a' ≤ c ∧ c ≤ 'f' then some (c.toNat - 87)
  else if 'A' ≤ c ∧ c ≤ 'F' then some (c.toNat - 55)
  else none

/-- The character denoted by a single-character JSON escape. -/
def escChar : Char → Option Char
  | '"' => some '"'
  | '\\' => some '\\'
  | '/' => some '/'
  | 'b' => some (Char.ofNat 8)
  | 'f' => some (Char.ofNat 12)
  | 'n' => some '\n'
  | 'r' => some '\r'
  | 't' => some '\t'
  | _ => none

/-- Modelled from the spec: the string-literal lexer of the JSON decoding
performed by `json.loads` (the decoder itself is the Python standard
library, not part of this repository). Consumes the characters after the
opening quote, handling escapes, up to and including the closing quote. -/
def lexString : List Char → Option (String × List Char)
  | [] => none
  | '"' :: cs => some ("", cs)
  | '\\' :: 'u' :: a :: b :: c :: d :: cs =>
      (match hexVal a, hexVal b, hexVal c, hexVal d with
       | some ha, some hb, some hc, some hd =>
           (lexString cs).map (fun p =>
             (String.singleton (Char.ofNat (((ha * 16 + hb) * 16 + hc) * 16 + hd)) ++ p.1,
              p.2))
       | _, _, _, _ => none)
  | '\\' :: e :: cs =>
      (match escChar e with
       | some c => (lexString cs).map (fun p => (String.singleton c ++ p.1, p.2))
       | none => none)
  | c :: cs => (lexString cs).map (fun p => (String.singleton c ++ p.1, p.2))

/-- Take the longest prefix of decimal digits. -/
def takeDigits : List Char → (List Char × List Char)
  | [] => ([], [])
  | c :: cs =>
      if c.isDigit then
        let p := takeDigits cs
        (c :: p.1, p.2)
      else ([], c :: cs)

/-- Lex the optional fraction part `.[0-9]+` of a JSON number. -/
def lexFrac : List Char → Option (List Char × List Char)
  | '.' :: r =>
      (match takeDigits r with
       | ([], _) => none
       | (ds, rr) => some ('.' :: ds, rr))
  | cs => some ([], cs)

/-- Lex the optional exponent part `[eE][+-]?[0-9]+` of a JSON number. -/
def lexExp : List Char → Option (List Char × List Char)
  | [] => some ([], [])
  | c :: r =>
      if c = 'e' ∨ c = 'E' then
        let sr : List Char × List Char :=
          match r with
          | '+' :: rr => (['+'], rr)
          | '-' :: rr => (['-'], rr)
          | _ => ([], r)
        match takeDigits sr.2 with
        | ([], _) => none
        | (ds, rr) => some (c :: (sr.1 ++ ds), rr)
      else some ([], c :: r)

/-- Modelled from the spec: the numeric-literal lexer of the JSON grammar,
`-?(0|[1-9][0-9]*)(.[0-9]+)?([eE][+-]?[0-9]+)?`; returns the raw lexeme. -/
def lexNumber (cs : List Char) : Option (String × List Char) :=
  let sr : List Char × List Char :=
    match cs with
    | '-' :: r => (['-'], r)
    | _ => ([], cs)
  match sr.2 with
  | [] => none
  | c :: r =>
      if ¬ c.isDigit then none
      else
        let ir : List Char × List Char :=
          if c = '0' then ([c], r)
          else
            let p := takeDigits r
            (c :: p.1, p.2)
        match lexFrac ir.2 with
        | none => none
        | some (fds, cs3) =>
            match lexExp cs3 with
            | none => none
            | some (eds, cs4) =>
                some (String.mk (sr.1 ++ ir.1 ++ fds ++ eds), cs4)

mutual

/-- Modelled from the spec: the recursive-descent value parser of the JSON
decoding performed by `json.loads` (Python standard library, external to
this repository). The fuel argument bounds nesting depth. -/
def parseValue : Nat → List Char → Option (Json × List Char)
  | 0, _ => none
  | Nat.succ fuel, cs =>
      match skipWs cs with
      | [] => none
      | 'n' :: 'u' :: 'l' :: 'l' :: r => some (Json.null, r)
      | 't' :: 'r' :: 'u' :: 'e' :: r => some (Json.bool true, r)
      | 'f' :: 'a' :: 'l' :: 's' :: 'e' :: r => some (Json.bool false, r)
      | '"' :: r => (lexString r).map (fun p => (Json.str p.1, p.2))
      | '[' :: r =>
          (match skipWs r with
           | ']' :: rr => some (Json.arr [], rr)
           | r2 => (parseElements fuel r2).map (fun p => (Json.arr p.1, p.2)))
      | c :: r =>
          if c = lbrace then
            match skipWs r with
            | [] => none
            | c2 :: rr =>
                if c2 = rbrace then some (Json.obj [], rr)
                else (parseMembers fuel (c2 :: rr)).map
                  (fun p => (Json.obj p.1, p.2))
          else (lexNumber (c :: r)).map (fun p => (Json.num p.1, p.2))

/-- Modelled from the spec: non-empty array element list, comma-separated,
ending at `]`. -/
def parseElements : Nat → List Char → Option (List Json × List Char)
  | 0, _ => none
  | Nat.succ fuel, cs =>
      match parseValue fuel cs with
      | none => none
      | some (v, r) =>
          match skipWs r with
          | ',' :: r2 =>
              (match parseElements fuel r2 with
               | none => none
               | some (vs, r3) => some (v :: vs, r3))
          | ']' :: r2 => some ([v], r2)
          | _ => none

/-- Modelled from the spec: non-empty object member list
`"key" : value`, comma-separated, ending at the closing brace. -/
def parseMembers : Nat → List Char → Option (List (String × Json) × List Char)
  | 0, _ => none
  | Nat.succ fuel, cs =>
      match skipWs cs with
      | '"' :: r =>
          (match lexString r with
           | none => none
           | some (k, r2) =>
               match skipWs r2 with
               | ':' :: r3 =>
                   (match parseValue fuel r3 with
                    | none => none
                    | some (v, r4) =>
                        match skipWs r4 with
                        | ',' :: r5 =>
                            (match parseMembers fuel r5 with
                             | none => none
                             | some (ms, r6) => some ((k, v) :: ms, r6))
                        | c :: r5 =>
                            if c = rbrace then some ([(k, v)], r5) else none
                        | [] => none)
               | _ => none)
      | _ => none

end

/-- Modelled from the spec: `json.loads` — decode a complete JSON document,
requiring only whitespace after the value; `none` stands for a raised
`json.JSONDecodeError`. -/
def json_loads (s : String) : Option Json :=
  match parseValue (s.length + 1) s.toList with
  | some (j, rest) => if (skipWs rest).isEmpty then some j else none
  | none => none

/-- Python `dict.get(k)` on a decoded JSON object: as `json.loads` builds a
`dict` from the member list, a later duplicate key overrides an earlier one,
so lookup returns the last match; `none` stands for Python `None`. -/
def objGet (k : String) : List (String × Json) → Option Json
  | [] => none
  | (k2, v) :: rest =>
      match objGet k rest with
      | some r => some r
      | none => if k2 = k then some v else none

/-- The Python exceptions that the response-parsing step can raise. -/
inductive PyError where
  | JSONDecodeError
  | AttributeError
deriving DecidableEq, Repr

/-- The response-parsing step of `llm_sql_query` (main.py lines 154-156):
`sql_result = json.loads(response_text); sql_query = sql_result.get('sql_query')`.
`json.loads` failure raises `json.JSONDecodeError`; calling `.get` on a
decoded non-dict value raises `AttributeError`; on a dict, `.get` returns
the field's value, or Python `None` (here `Except.ok none`) when the
`sql_query` key is absent — no exception is raised in that case. -/
def llm_sql_query_parse (response_text : String) : Except PyError (Option Json) :=
  match json_loads response_text with
  | none => Except.error PyError.JSONDecodeError
  | some (Json.obj fields) => Except.ok (objGet "sql_query" fields)
  | some _ => Except.error PyError.AttributeError

/-- C6 counterexample: the raw response text is the valid JSON object with
no `sql_query` field; the claim requires a `ResponseParseError`, but the
code's `dict.get` returns Python `None` and the call succeeds. -/
theorem llm_sql_query_parse_missing_field_ok :
    llm_sql_query_parse "\x7b\x7d" = Except.ok none := rfl

/-- C6 amended: parsing raises `JSONDecodeError` exactly when the raw text
is not valid JSON (e.g. on `'not json'`); on a decoded object it returns the
`sql_query` field's value when present (the spec's example returns exactly
`"SELECT * FROM patients"`) and returns `None` without raising when the
field is absent. -/
theorem llm_sql_query_parse_amended :
    llm_sql_query_parse "not json" = Except.error PyError.JSONDecodeError ∧
    llm_sql_query_parse "\x7b\"sql_query\": \"SELECT * FROM patients\"\x7d" =
      Except.ok (some (Json.str "SELECT * FROM patients")) ∧
    (∀ raw : String, json_loads raw = none →
      llm_sql_query_parse raw = Except.error PyError.JSONDecodeError) ∧
    (∀ (raw : String) (fields : List (String × Json)),
      json_loads raw = some (Json.obj fields) →
      llm_sql_query_parse raw = Except.ok (objGet "sql_query" fields)) := by
  refine ⟨rfl, rfl, ?_, ?_⟩
  · intro raw h
    simp [llm_sql_query_parse, h]
  · intro raw fields h
    simp [llm_sql_query_parse, h]

theorem llm_sql_query_parse_amended_witness :
    json_loads "oops" = none ∧
    llm_sql_query_parse "oops" = Except.error PyError.JSONDecodeError :=
  ⟨rfl, llm_sql_query_parse_amended.2.2.1 "oops" rfl⟩

/-- `load_schema` (main.py lines 33-52 and, identically, build_vector_db.py
lines 8-27): the filesystem is modelled as a partial map from path to file
contents; `open` on a missing path raises `FileNotFoundError`, which the
function catches, prints, and converts to a `None` return; a
`json.JSONDecodeError` is likewise caught and converted to `None`; a
successfully decoded value is returned with no structural validation. -/
def load_schema (fs : String → Option String) (file_path : String) :
    Option Json :=
  match fs file_path with
  | none => none
  | some contents => json_loads contents

/-- A filesystem whose only file holds the JSON array `[1, 2]`. -/
def fsArrayFile : String → Option String :=
  fun p => if p = "database_schema.json" then some "[1, 2]" else none

/-- A filesystem whose only file holds one table entry that lacks the
required `primary_keys` and `foreign_keys` fields. -/
def fsMissingFields : String → Option String :=
  fun p =>
    if p = "database_schema.json" then
      some "\x7b\"t\": \x7b\"columns\": \x7b\x7d\x7d\x7d"
    else none

/-- C7 counterexample: a schema file whose top level is the array `[1, 2]`
is returned successfully — no `SchemaFormatError` exists in the code — and
a missing path yields the ordinary return value `None` (the caught
`FileNotFoundError` is not surfaced as `SchemaFileNotFoundError`). -/
theorem load_schema_no_validation :
    load_schema fsArrayFile "database_schema.json" =
      some (Json.arr [Json.num "1", Json.num "2"]) ∧
    load_schema fsArrayFile "missing.json" = none :=
  ⟨rfl, rfl⟩

/-- C7 amended: `load_schema` catches `FileNotFoundError` and
`json.JSONDecodeError`, printing a message and returning `None` in both
cases, and performs no structural validation: whatever JSON value the file
decodes to — including a non-map top level or table entries missing
`columns`/`primary_keys`/`foreign_keys` — is returned unchanged. -/
theorem load_schema_amended :
    (∀ (fs : String → Option String) (path : String),
      fs path = none → load_schema fs path = none) ∧
    (∀ (fs : String → Option String) (path contents : String),
      fs path = some contents → load_schema fs path = json_loads contents) ∧
    load_schema fsMissingFields "database_schema.json" =
      some (Json.obj [("t", Json.obj [("columns", Json.obj [])])]) := by
  refine ⟨?_, ?_, rfl⟩
  · intro fs path h
    simp [load_schema, h]
  · intro fs path contents h
    simp [load_schema, h]

theorem load_schema_amended_witness :
    fsArrayFile "missing.json" = none ∧
    load_schema fsArrayFile "missing.json" = none :=
  ⟨rfl, load_schema_amended.1 fsArrayFile "missing.json" rfl⟩

/-- The database connection configuration handed to `pymysql.connect`
(main.py lines 216-221). -/
structure DbConfig where
  database : String
  host : String
  user : String
  password : String
deriving DecidableEq, Repr

/-- `sql_response` (main.py lines 162-193). The external
connect/execute/fetchall pipeline is abstracted as `execQuery`, which
either yields the complete fetched row list or raises (`Except.error`).
The function's own logic is the `try`/`except Exception` wrapper: on
success it returns the rows, on any exception it prints the error and
returns Python `None` (here `none`) — it re-raises nothing. -/
def sql_response {Row : Type}
    (execQuery : String → DbConfig → Except String (List Row))
    (sql_query : String) (db_config : DbConfig) : Option (List Row) :=
  match execQuery sql_query db_config with
  | Except.ok results => some results
  | Except.error _ => none

/-- The hard-coded connection configuration of `streamlit_ui`
(main.py lines 216-221). -/
def hmsConfig : DbConfig :=
  { database := "hms", host := "localhost", user := "root", password := "aardra" }

/-- An execution backend that raises on every query. -/
def failingExec : String → DbConfig → Except String (List (List String)) :=
  fun _ _ => Except.error "Table does not exist"

/-- C8 counterexample: with a backend that raises on the query
`SELECT * FROM nope`, `sql_response` swallows the exception and returns the
ordinary value `None` — no `QueryExecutionError` reaches the caller, contrary
to the claim that the error is surfaced and never silently swallowed. -/
theorem sql_response_swallows_error :
    sql_response failingExec "SELECT * FROM nope" hmsConfig = none := rfl

/-- C8 amended: on a successful execution `sql_response` returns exactly the
complete fetched row list (never truncated); on any raised execution error it
catches the exception and returns `None`, so the error does not propagate to
the caller. -/
theorem sql_response_amended :
    (∀ (Row : Type) (execQuery : String → DbConfig → Except String (List Row))
      (q : String) (cfg : DbConfig) (rows : List Row),
      execQuery q cfg = Except.ok rows →
      sql_response execQuery q cfg = some rows) ∧
    (∀ (Row : Type) (execQuery : String → DbConfig → Except String (List Row))
      (q : String) (cfg : DbConfig) (e : String),
      execQuery q cfg = Except.error e →
      sql_response execQuery q cfg = none) := by
  constructor
  · intro Row execQuery q cfg rows h
    simp [sql_response, h]
  · intro Row execQuery q cfg e h
    simp [sql_response, h]

theorem sql_response_amended_witness :
    failingExec "SELECT 1" hmsConfig = Except.error "Table does not exist" ∧
    sql_response failingExec "SELECT 1" hmsConfig = none :=
  ⟨rfl, sql_response_amended.2 (List String) failingExec "SELECT 1" hmsConfig
    "Table does not exist" rfl⟩
